import Mathlib

/-!
Shallow embedding of the resumable, verified, parallel file-fetch pipeline of
`scripts/download_models.py` (repository EcomTree/runpod-comfyui-cloud), and
proofs of the specification's claims about it.

Modelling conventions:
* file contents are `List Nat` (byte lists); sizes are `Nat` (Python ints);
* the SHA-256 hex digest of `hashlib` (an external library) is an abstract
  parameter `hash : List Nat → String`;
* the local filesystem is `FS := String → Option (List Nat)` (path to content);
* the remote server, as observed through the shared `requests` session, is a
  function from the attempt index to that attempt's HEAD and GET behaviour;
* a missing checksum (`None` in Python) and an empty checksum string are both
  modelled as `""`, matching Python truthiness (`if expected_checksum:`);
* `time.sleep` is modelled by recording `(attempt, seconds)` pairs;
* progress-bar bookkeeping (`tqdm`, the `total_size` recomputation at lines
  336-344) is omitted: it feeds only the progress display, never control flow.
-/

namespace DownloadModels

/-! ### Constants (`download_models.py` lines 27-34) -/

def RETRY_BASE_DELAY_SECONDS : Nat := 5

def MIB_TO_BYTES : Nat := 1024 * 1024

def KB_TO_BYTES : Nat := 1024

def MIN_VALID_FILE_SIZE_KB : Nat := 10

/-- `MODEL_CLASSIFICATION_MAPPING` (lines 37-50): ordered from most specific
to most general; an entry pairs a target directory with its filename
patterns. -/
def MODEL_CLASSIFICATION_MAPPING : List (String × List String) :=
  [("unet", ["flux", "sd3", "auraflow", "hunyuan", "kolors", "lumina"]),
   ("vae", ["vae", "kl-f8-anime"]),
   ("clip_vision", ["clip_vision", "image_encoder"]),
   ("clip", ["clip", "open_clip"]),
   ("t5", ["t5", "umt5"]),
   ("controlnet", ["controlnet", "control_", "canny", "depth", "openpose", "scribble"]),
   ("loras", ["lora", ".lora"]),
   ("upscale_models", ["esrgan", "realesrgan", "swinir", "4x", "2x", "upscale"]),
   ("animatediff_models", ["animatediff", "mm_", "motion"]),
   ("ipadapter", ["ip-adapter", "ip_adapter"]),
   ("text_encoders", ["text_encoder"]),
   ("checkpoints", [".ckpt", ".safetensors"])]

/-! ### String helpers

The scripts manipulate strings only through Python's built-in operations
(`str.split`, `str.lower`, `str.startswith`, `str.endswith`, `in`) and the
standard library's `urlparse`, all external to the repository.  They are
modelled here by structurally recursive functions over each string's
character list. -/

/-- `listContains pat s` holds when `pat` occurs contiguously inside `s`
(Python `pat in s`). -/
def listContains (pat : List Char) : List Char → Bool
  | [] => pat.isEmpty
  | c :: rest => pat.isPrefixOf (c :: rest) || listContains pat rest

/-- Python `pattern in filename` (substring containment). -/
def strContains (s pat : String) : Bool :=
  listContains pat.data s.data

/-- Python `s.lower()` character by character (`Char.toLower` lower-cases
exactly the basic latin letters, as `str.lower` does on ASCII input). -/
def lowerChars : List Char → List Char
  | [] => []
  | c :: cs => c.toLower :: lowerChars cs

/-- Python `s.lower()`. -/
def strToLower (s : String) : String := ⟨lowerChars s.data⟩

/-- Python `s.split(sep)` for a one-character separator. -/
def splitOnChar (sep : Char) : List Char → List (List Char)
  | [] => [[]]
  | c :: rest =>
    if c = sep then [] :: splitOnChar sep rest
    else
      match splitOnChar sep rest with
      | [] => [[c]]
      | h :: t => (c :: h) :: t

/-- Everything before the first occurrence of `sep`
(Python `s.split(sep)[0]`). -/
def beforeChar (sep : Char) (s : List Char) : List Char :=
  (splitOnChar sep s).headD []

/-- Split at the first occurrence of the pattern `pat`: `some (pre, post)`
with `s = pre ++ pat ++ post`, or `none` when `pat` does not occur. -/
def breakOn (pat : List Char) : List Char → Option (List Char × List Char)
  | [] => none
  | c :: rest =>
    if pat.isPrefixOf (c :: rest) then some ([], (c :: rest).drop pat.length)
    else
      match breakOn pat rest with
      | none => none
      | some (pre, post) => some (c :: pre, post)

/-! ### URL parsing

`urlparse` (Python stdlib) is modelled for the URL shapes the downloader
receives — `scheme://netloc/path`, optionally followed by a query (`?...`)
or fragment (`#...`) — of which the scripts use only the `.path`
component; the query and fragment are not part of `.path`. -/

/-- Models `urlparse(url).path`. -/
def urlparsePath (url : String) : String :=
  let noFrag := beforeChar '#' url.data
  let noQuery := beforeChar '?' noFrag
  match breakOn [':', '/', '/'] noQuery with
  | none => ⟨noQuery⟩
  | some (_scheme, rest) =>
    match breakOn ['/'] rest with
    | none => ""
    | some (_netloc, post) => ⟨'/' :: post⟩

/-- `parsed_url.path.split("/")[-1] if parsed_url.path else "unknown"`
(lines 239, 280, 419; lines 278 and 417 first strip the query with
`url.split("?")[0]`, which `urlparsePath` already discards). -/
def urlFilename (url : String) : String :=
  let path := urlparsePath url
  if path = "" then "unknown"
  else ⟨(splitOnChar '/' path.data).getLastD []⟩

/-! ### `determine_target_directory` (lines 236-253) -/

/-- The inner pattern test of `determine_target_directory`: patterns starting
with a dot are extension checks (`filename.endswith(pattern)`), the rest are
substring checks (`pattern in filename`). -/
def patternMatches (filename pat : String) : Bool :=
  if ['.'].isPrefixOf pat.data then pat.data.isSuffixOf filename.data
  else strContains filename pat

/-- A mapping entry fires when any of its patterns matches the filename. -/
def ruleMatches (filename : String) (rule : String × List String) : Bool :=
  rule.2.any (patternMatches filename)

/-- The classification scan of lines 243-253: first matching entry wins,
default fallback `diffusion_models`. -/
def classifyFilename (filename : String) : String :=
  match MODEL_CLASSIFICATION_MAPPING.find? (ruleMatches filename) with
  | some rule => rule.1
  | none => "diffusion_models"

/-- `determine_target_directory` (lines 236-253): lower-case the file name
drawn from the URL path, then scan the classification mapping. -/
def determine_target_directory (url : String) : String :=
  classifyFilename (strToLower (urlFilename url))

/-! ### `verify_checksum` (lines 68-103)

`hash` abstracts `hashlib.sha256(...).hexdigest()` over the file's bytes.
The function takes the file's content as `Option (List Nat)`: opening a
missing file raises, the blanket `except` returns `False` (lines 101-103).
An empty expected digest short-circuits to `True` first (lines 79-80). -/

def verify_checksum (hash : List Nat → String) (file : Option (List Nat))
    (expected_sha256 : String) : Bool :=
  if expected_sha256 = "" then true
  else
    match file with
    | none => false
    | some content => strToLower (hash content) == strToLower expected_sha256

/-! ### The transfer model for `download_file_with_resume` (lines 255-390)

One attempt of the retry loop sees the remote through two operations:
a HEAD probe (issued only when the destination file exists, lines 290-292)
and a streamed GET (line 321, and line 333 inside the 416 branch). -/

/-- Outcome of one `session.get` together with the chunk loop that streams
its body (lines 321-360): `netErr w` is a raised `RequestException`
(line 375) and `fatal w` any other raised exception (line 386), where `w`
records what the chunk loop managed to write before the exception —
`none` when the failure happened before the destination file was opened
(so the file is untouched), `some partial` when it happened mid-stream
(the file was already opened in the chosen mode and holds `partial` after
what the mode kept).  `resp status body` is a fully streamed response. -/
inductive GetResult where
  | netErr : Option (List Nat) → GetResult
  | fatal : Option (List Nat) → GetResult
  | resp : Nat → List Nat → GetResult
deriving DecidableEq

/-- What the server does on one attempt: the HEAD probe's `content-length`
(already defaulted to `0` when the header is missing, line 292) or a raised
exception, and the GET outcome as a function of the optional `Range` start
offset (`none` = no `Range` header). -/
structure AttemptEnv where
  head : Except Unit Nat
  get : Option Nat → GetResult

/-- The remote as seen across attempts: attempt index to behaviour. -/
def Server : Type := Nat → AttemptEnv

/-- Result of `download_file_with_resume`: the returned boolean, the final
destination-file state, the backoff sleeps performed (attempt index paired
with seconds slept), and instrumentation counting HTTP requests issued and
body bytes streamed to disk. -/
structure DlResult where
  success : Bool
  file : Option (List Nat)
  waits : List (Nat × Nat)
  netOps : Nat
  netBytes : Nat

/-- How one attempt ends: `done` = a `return` statement was reached;
`retryAfterWait` = the `RequestException` handler slept and the loop moved
to the next attempt (lines 377-381); `retryNow` = the checksum-mismatch
`continue` (lines 366-369, no sleep). Each carries the file state left
behind, plus the requests issued and bytes streamed during the attempt. -/
inductive StepOut where
  | done : Bool → Option (List Nat) → StepOut
  | retryAfterWait : Nat → Option (List Nat) → StepOut
  | retryNow : Option (List Nat) → StepOut

structure StepRes where
  out : StepOut
  ops : Nat
  bytes : Nat

/-- Lines 362-373: post-transfer checksum verification, then `return True`.
On a mismatch with attempts remaining: `target_path.unlink()` then
`continue` (lines 366-369); on the last attempt: `return False`
(line 370). -/
def verifyAndFinish (hash : List Nat → String) (expected_checksum : String)
    (attempt retry_count : Nat) (newFile : List Nat) (ops bytes : Nat) : StepRes :=
  if expected_checksum = "" then ⟨.done true (some newFile), ops, bytes⟩
  else if verify_checksum hash (some newFile) expected_checksum then
    ⟨.done true (some newFile), ops, bytes⟩
  else if attempt < retry_count - 1 then ⟨.retryNow none, ops, bytes⟩
  else ⟨.done false (some newFile), ops, bytes⟩

/-- Lines 375-384: the `except requests.exceptions.RequestException`
handler, with the backoff sleep
`min((2 ** (attempt + 1)) * RETRY_BASE_DELAY_SECONDS, 60)` (line 379)
when attempts remain, `return False` otherwise. -/
def onNetErr (attempt retry_count : Nat) (f : Option (List Nat))
    (ops bytes : Nat) : StepRes :=
  if attempt < retry_count - 1 then
    ⟨.retryAfterWait (min ((2 ^ (attempt + 1)) * RETRY_BASE_DELAY_SECONDS) 60) f,
      ops, bytes⟩
  else ⟨.done false f, ops, bytes⟩

/-- Lines 310-373: the transfer phase of one attempt, given the (possibly
reset) `existing_size` and the matching file state `f`.  The `Range` header
is sent iff `existing_size` exceeds the size floor (lines 313-315), and the
destination is then opened in append mode (`written`).  A response status
of 400 or above makes `response.raise_for_status()` (line 322) raise
`HTTPError`, a `RequestException` — note that this fires for 416 too, so
the explicit 416 handler (lines 324-334) is unreachable; it is embedded
below behind the `status = 416` test all the same. -/
def transfer (hash : List Nat → String) (env : AttemptEnv)
    (expected_checksum : String) (attempt retry_count : Nat)
    (existing_size : Nat) (f : Option (List Nat)) (ops : Nat) : StepRes :=
  let useRange := existing_size > MIN_VALID_FILE_SIZE_KB * KB_TO_BYTES
  -- what the destination file holds once the chunk loop wrote `chunk`
  -- (append mode iff a Range header was sent, lines 310-318, 356-360)
  let written : List Nat → List Nat := fun chunk =>
    if useRange then f.getD [] ++ chunk else chunk
  match env.get (if useRange then some existing_size else none) with
  | .netErr none => onNetErr attempt retry_count f (ops + 1) 0
  | .netErr (some part) =>
    onNetErr attempt retry_count (some (written part)) (ops + 1) part.length
  | .fatal none => ⟨.done false f, ops + 1, 0⟩
  | .fatal (some part) =>
    ⟨.done false (some (written part)), ops + 1, part.length⟩
  | .resp status body =>
    if 400 ≤ status then
      onNetErr attempt retry_count f (ops + 1) 0
    else if status = 416 then
      -- lines 324-334 (dead code): unlink, drop the Range header, re-GET
      match env.get none with
      | .netErr none => onNetErr attempt retry_count none (ops + 2) 0
      | .netErr (some part) =>
        onNetErr attempt retry_count (some part) (ops + 2) part.length
      | .fatal none => ⟨.done false none, ops + 2, 0⟩
      | .fatal (some part) =>
        ⟨.done false (some part), ops + 2, part.length⟩
      | .resp status2 body2 =>
        if 400 ≤ status2 then onNetErr attempt retry_count none (ops + 2) 0
        else verifyAndFinish hash expected_checksum attempt retry_count body2
          (ops + 2) body2.length
    else
      -- lines 356-360: stream to disk, append mode iff a Range was sent
      verifyAndFinish hash expected_checksum attempt retry_count (written body)
        (ops + 1) body.length

/-- One iteration of the `for attempt in range(retry_count)` body
(lines 283-388): the existing-file probe (lines 284-308) followed by the
transfer phase.  A complete existing file (size equal to the HEAD
`content-length`, which must be positive) returns `True` directly, after a
checksum check when one was supplied; a mismatch there unlinks the file and
falls through to a fresh transfer (lines 301-303). -/
def attemptStep (hash : List Nat → String) (env : AttemptEnv)
    (expected_checksum : String) (attempt retry_count : Nat)
    (file : Option (List Nat)) : StepRes :=
  match file with
  | none => transfer hash env expected_checksum attempt retry_count 0 none 0
  | some content =>
    let existing_size := content.length
    match env.head with
    | .error _ =>
      transfer hash env expected_checksum attempt retry_count existing_size
        (some content) 1
    | .ok total_size =>
      if existing_size = total_size ∧ 0 < total_size then
        if expected_checksum = "" then ⟨.done true (some content), 1, 0⟩
        else if verify_checksum hash (some content) expected_checksum then
          ⟨.done true (some content), 1, 0⟩
        else
          -- lines 301-303: mismatch, unlink, `existing_size = 0`
          transfer hash env expected_checksum attempt retry_count 0 none 1
      else
        transfer hash env expected_checksum attempt retry_count existing_size
          (some content) 1

/-- The retry loop of `download_file_with_resume`.  `fuel` is the number of
loop iterations still to run (initially `retry_count`); when it reaches `0`
the loop falls through to `return False` (line 390). -/
def dlLoop (hash : List Nat → String) (server : Server)
    (expected_checksum : String) (retry_count : Nat) :
    Nat → Nat → Option (List Nat) → List (Nat × Nat) → Nat → Nat → DlResult
  | 0, _attempt, file, waits, ops, bytes => ⟨false, file, waits, ops, bytes⟩
  | fuel + 1, attempt, file, waits, ops, bytes =>
    let s := attemptStep hash (server attempt) expected_checksum attempt retry_count file
    match s.out with
    | .done ok f => ⟨ok, f, waits, ops + s.ops, bytes + s.bytes⟩
    | .retryNow f =>
      dlLoop hash server expected_checksum retry_count fuel (attempt + 1) f
        waits (ops + s.ops) (bytes + s.bytes)
    | .retryAfterWait w f =>
      dlLoop hash server expected_checksum retry_count fuel (attempt + 1) f
        (waits ++ [(attempt, w)]) (ops + s.ops) (bytes + s.bytes)

/-- `download_file_with_resume` (lines 255-390), for an initial destination
file state `file`.  The Python default `retry_count=3` is passed explicitly
by our call sites, as the in-repo caller does implicitly (line 444). -/
def download_file_with_resume (hash : List Nat → String) (server : Server)
    (expected_checksum : String) (retry_count : Nat)
    (file : Option (List Nat)) : DlResult :=
  dlLoop hash server expected_checksum retry_count retry_count 0 file [] 0 0

/-! ### `download_single_model` and `download_all_models_parallel`
(lines 392-481) -/

/-- One entry of `models_with_checksums`: `url` plus optional `checksum`
(`""` models an absent key, per Python truthiness at lines 296, 363, 430). -/
structure ModelInfo where
  url : String
  checksum : String

/-- The destination tree: path to file content (`none` = no file). -/
def FS : Type := String → Option (List Nat)

/-- Point update (file write or, with `none`, `Path.unlink`). -/
def FS.update (fs : FS) (p : String) (v : Option (List Nat)) : FS :=
  fun q => if q = p then v else fs q

/-- `self.models_dir / target_dir / filename` (line 422). -/
def targetPathOf (models_dir url : String) : String :=
  models_dir ++ "/" ++ determine_target_directory url ++ "/" ++ urlFilename url

/-- What one `download_single_model` task produced: the `(url, success,
was_skipped)` booleans it returns (line 433, 439, 445), the filesystem it
leaves behind, and instrumentation counting the HTTP requests it issued and
the body bytes it streamed. -/
structure TaskResult where
  success : Bool
  skipped : Bool
  fs : FS
  netOps : Nat
  netBytes : Nat

/-- The tail of `download_single_model` (line 444): run
`download_file_with_resume` (with its default `retry_count=3`) on the
current state of the target path and write the resulting file state back. -/
def proceedDownload (hash : List Nat → String) (server : Server)
    (checksum : String) (fs : FS) (tp : String) : TaskResult :=
  let r := download_file_with_resume hash server checksum 3 (fs tp)
  ⟨r.success, false, FS.update fs tp r.file, r.netOps, r.netBytes⟩

/-- `download_single_model` (lines 411-445).  `serverFor` gives each URL its
remote behaviour. -/
def download_single_model (hash : List Nat → String) (serverFor : String → Server)
    (models_dir : String) (mi : ModelInfo) (fs : FS) : TaskResult :=
  let tp := targetPathOf models_dir mi.url
  match fs tp with
  | some content =>
    if content.length > MIN_VALID_FILE_SIZE_KB * KB_TO_BYTES then
      if mi.checksum = "" then
        -- line 438: skip, file exists with a plausible size
        ⟨true, true, fs, 0, 0⟩
      else if verify_checksum hash (some content) mi.checksum then
        -- line 432: skip, checksum verified
        ⟨true, true, fs, 0, 0⟩
      else
        -- lines 435-436: mismatch, unlink, fall through to the download
        proceedDownload hash (serverFor mi.url) mi.checksum (FS.update fs tp none) tp
    else
      -- lines 440-442: below the size floor, unlink, re-download
      proceedDownload hash (serverFor mi.url) mi.checksum (FS.update fs tp none) tp
  | none => proceedDownload hash (serverFor mi.url) mi.checksum fs tp

/-- The dispatch loop of `download_all_models_parallel` (lines 448-453),
serialised in request order.  Each worker owns a distinct target path in the
intended configuration, so the thread pool's completion order cannot change
any task's result; threading the filesystem sequentially captures every
interleaving in which distinct-path tasks commute. -/
def runPipeline (hash : List Nat → String) (serverFor : String → Server)
    (models_dir : String) : List ModelInfo → FS → List TaskResult × FS
  | [], fs => ([], fs)
  | m :: ms, fs =>
    let r := download_single_model hash serverFor models_dir m fs
    let rest := runPipeline hash serverFor models_dir ms r.fs
    (r :: rest.1, rest.2)

/-- One step of the tally loop (lines 456-467): a task that raised an
unexpected exception counts as failed, otherwise `was_skipped`, then
`success`, decide the counter.  The accumulator is
`(successful, skipped, failed)`. -/
def tallyStep : Nat × Nat × Nat → Except Unit (Bool × Bool) → Nat × Nat × Nat
  | (s, sk, f), .error _ => (s, sk, f + 1)
  | (s, sk, f), .ok (success, was_skipped) =>
    if was_skipped then (s, sk + 1, f)
    else if success then (s + 1, sk, f)
    else (s, sk, f + 1)

/-- The `as_completed` tally of `download_all_models_parallel`
(lines 407-409, 456-467) over the per-task outcomes. -/
def tallyOutcomes (rs : List (Except Unit (Bool × Bool))) : Nat × Nat × Nat :=
  rs.foldl tallyStep (0, 0, 0)

/-- `download_all_models_parallel` (lines 392-481): run every request, then
tally `(successful, skipped, failed)`.  (In the model no task raises, so
each outcome enters the tally as `.ok`.) -/
def download_all_models_parallel (hash : List Nat → String)
    (serverFor : String → Server) (models_dir : String)
    (models : List ModelInfo) (fs : FS) : (Nat × Nat × Nat) × FS :=
  let run := runPipeline hash serverFor models_dir models fs
  (tallyOutcomes (run.1.map fun r => .ok (r.success, r.skipped)), run.2)

/-- The run-level summary printed at lines 469-472: it names all three
counters unconditionally. -/
def downloadStatistics (successful skipped failed : Nat) : List String :=
  ["Download Statistics:",
   "Successful: " ++ toString successful,
   "Skipped: " ++ toString skipped,
   "Failed: " ++ toString failed]

/-- Exit code of the interpreter after `main` (lines 578-627) reaches the
download phase.  After `download_all_models_parallel` returns, `main` only
prints the summary, writes `downloaded_models_summary.json` and returns;
no `sys.exit` inspects the failure count (the only `sys.exit(1)` calls sit
in `load_verified_links`, before any download), so the process always ends
with status 0 whatever the counters say. -/
def mainExitCode (_successful _skipped _failed : Nat) : Nat := 0

/-! ### Defaults and concrete fixtures used in the claim theorems -/

def dummyTask : TaskResult := ⟨false, false, fun _ => none, 0, 0⟩

def dummyModel : ModelInfo := ⟨"", ""⟩

/-- A degenerate digest oracle for runs whose digests never matter. -/
def constHash : List Nat → String := fun _ => "aa"

/-- A remote that always answers a full 200 response whose body is `body`
(the HEAD `content-length` is absent, hence `0`, line 292). -/
def okServer (body : List Nat) : Server :=
  fun _ => ⟨Except.ok 0, fun _ => GetResult.resp 200 body⟩

/-- An existing partial file of 20000 bytes, above the resume floor. -/
def part20000 : List Nat := List.replicate 20000 0

/-- A remote that reports a 30000-byte total on HEAD and answers every GET
with HTTP 416 (range not satisfiable) and an empty body. -/
def server416 : Server :=
  fun _ => ⟨Except.ok 30000, fun _ => GetResult.resp 416 []⟩

/-- A digest oracle that knows the two-byte body `[3, 4]` and answers in
upper-case hex, to exercise the case-insensitive comparison. -/
def hashC2 : List Nat → String := fun l => if l = [3, 4] then "AB" else "00"

/-- A remote serving the two-byte body `[3, 4]`. -/
def serverC2 : Server := fun _ => ⟨Except.ok 0, fun _ => GetResult.resp 200 [3, 4]⟩

/-- A remote whose first attempt fails with a `RequestException` before the
response body, and which then serves a one-byte file. -/
def serverC5 : Server := fun a =>
  if a = 0 then ⟨Except.ok 0, fun _ => GetResult.netErr none⟩
  else ⟨Except.ok 0, fun _ => GetResult.resp 200 [5]⟩

/-- A remote that never responds (every GET raises a `RequestException`). -/
def serverDown : Server := fun _ => ⟨Except.ok 0, fun _ => GetResult.netErr none⟩

/-- The URL used by the `download_single_model` fixtures. -/
def fooUrl : String := "https://example.com/models/foo.safetensors"

/-- The empty destination tree. -/
def emptyFS : FS := fun _ => none

/-- A request with no digest for `fooUrl`. -/
def miFoo : ModelInfo := ⟨fooUrl, ""⟩

/-- A request for `fooUrl` whose digest is the constant oracle's answer. -/
def miFooCk : ModelInfo := ⟨fooUrl, "aa"⟩

/-- A destination tree holding a 3-byte (below-floor) file at `miFoo`'s
target path. -/
def smallFS : FS :=
  FS.update emptyFS (targetPathOf "models" fooUrl) (some [1, 2, 3])

/-- The content of a plausibly-sized (above-floor) existing file. -/
def big10241 : List Nat := List.replicate 10241 3

/-- A destination tree holding `big10241` at `miFoo`'s target path. -/
def bigFS : FS :=
  FS.update emptyFS (targetPathOf "models" fooUrl) (some big10241)

/-- Every URL resolves to the remote serving `big10241` in full. -/
def sForBig : String → Server := fun _ => okServer big10241

/-- Every URL resolves to the remote serving a 1024-byte (below-floor)
file in full. -/
def sForSmall : String → Server := fun _ => okServer (List.replicate 1024 7)

/-- The concrete URL of the spec's category-resolution scenario. -/
def vaeUrl : String :=
  "https://huggingface.co/stabilityai/sd-vae-ft-mse-original/resolve/main/vae-ft-mse-840000-ema-pruned.safetensors"

/-! ### Helper lemmas: the checksum invariant of the retry loop -/

theorem FS.update_self (fs : FS) (p : String) (v : Option (List Nat)) :
    FS.update fs p v p = v := by
  simp [FS.update]

theorem FS.update_other (fs : FS) (p q : String) (v : Option (List Nat))
    (h : q ≠ p) : FS.update fs p v q = fs q := by
  simp [FS.update, h]

/-- A passed `verify_checksum` with a non-empty expected digest means the
file exists and its digest matches case-insensitively. -/
theorem verify_checksum_sound {hash : List Nat → String}
    {file : Option (List Nat)} {cs : String} (hcs : cs ≠ "")
    (h : verify_checksum hash file cs = true) :
    ∃ c, file = some c ∧ strToLower (hash c) = strToLower cs := by
  unfold verify_checksum at h
  rw [if_neg hcs] at h
  cases file with
  | none => simp at h
  | some c => exact ⟨c, rfl, by simpa using h⟩

theorem onNetErr_done {a rc : Nat} {f f' : Option (List Nat)}
    {ops bytes : Nat} {b : Bool}
    (h : (onNetErr a rc f ops bytes).out = .done b f') :
    b = false ∧ f' = f := by
  unfold onNetErr at h
  split at h <;> simp_all

/-- Every `return True` of the verification tail carries a file state that
passes `verify_checksum` (trivially so when no digest was supplied). -/
theorem verifyAndFinish_done_true {hash : List Nat → String} {cs : String}
    {a rc : Nat} {nf : List Nat} {ops bytes : Nat} {f : Option (List Nat)}
    (h : (verifyAndFinish hash cs a rc nf ops bytes).out = .done true f) :
    verify_checksum hash f cs = true := by
  unfold verifyAndFinish at h
  split at h
  · rename_i hcs
    simp only [StepOut.done.injEq, true_and] at h
    subst h
    simp [verify_checksum, hcs]
  · split at h
    · rename_i hver
      simp only [StepOut.done.injEq, true_and] at h
      subst h
      assumption
    · split at h <;> simp_all

/-- Every `return True` of the transfer phase carries a verified file. -/
theorem transfer_done_true {hash : List Nat → String} {env : AttemptEnv}
    {cs : String} {a rc es : Nat} {f : Option (List Nat)} {ops : Nat}
    {f' : Option (List Nat)}
    (h : (transfer hash env cs a rc es f ops).out = .done true f') :
    verify_checksum hash f' cs = true := by
  unfold transfer at h
  simp only [] at h
  cases hg : env.get (if es > MIN_VALID_FILE_SIZE_KB * KB_TO_BYTES then some es else none) with
  | netErr w =>
    rw [hg] at h
    cases w with
    | none => simp only [] at h; exact absurd (onNetErr_done h).1 (by simp)
    | some part => simp only [] at h; exact absurd (onNetErr_done h).1 (by simp)
  | fatal w =>
    rw [hg] at h
    cases w with
    | none => simp_all
    | some part => simp_all
  | resp status body =>
    rw [hg] at h
    simp only [] at h
    by_cases h400 : 400 ≤ status
    · rw [if_pos h400] at h
      exact absurd (onNetErr_done h).1 (by simp)
    · rw [if_neg h400] at h
      by_cases h416 : status = 416
      · rw [if_pos h416] at h
        cases hg2 : env.get none with
        | netErr w2 =>
          rw [hg2] at h
          cases w2 with
          | none => exact absurd (onNetErr_done h).1 (by simp)
          | some part => exact absurd (onNetErr_done h).1 (by simp)
        | fatal w2 =>
          rw [hg2] at h
          cases w2 with
          | none => simp_all
          | some part => simp_all
        | resp status2 body2 =>
          rw [hg2] at h
          simp only [] at h
          by_cases h400b : 400 ≤ status2
          · rw [if_pos h400b] at h
            exact absurd (onNetErr_done h).1 (by simp)
          · rw [if_neg h400b] at h
            exact verifyAndFinish_done_true h
      · rw [if_neg h416] at h
        exact verifyAndFinish_done_true h

/-- Every `return True` of one whole attempt carries a verified file. -/
theorem attemptStep_done_true {hash : List Nat → String} {env : AttemptEnv}
    {cs : String} {a rc : Nat} {file f : Option (List Nat)}
    (h : (attemptStep hash env cs a rc file).out = .done true f) :
    verify_checksum hash f cs = true := by
  unfold attemptStep at h
  cases file with
  | none => exact transfer_done_true h
  | some content =>
    simp only [] at h
    cases hh : env.head with
    | error e => rw [hh] at h; exact transfer_done_true h
    | ok total_size =>
      rw [hh] at h
      simp only [] at h
      by_cases hcomp : content.length = total_size ∧ 0 < total_size
      · rw [if_pos hcomp] at h
        by_cases hcs : cs = ""
        · rw [if_pos hcs] at h
          simp only [StepOut.done.injEq, true_and] at h
          subst h
          simp [verify_checksum, hcs]
        · rw [if_neg hcs] at h
          by_cases hver : verify_checksum hash (some content) cs = true
          · rw [if_pos hver] at h
            simp only [StepOut.done.injEq, true_and] at h
            subst h
            exact hver
          · rw [if_neg hver] at h
            exact transfer_done_true h
      · rw [if_neg hcomp] at h
        exact transfer_done_true h

/-- The retry loop only returns `True` with a file passing
`verify_checksum`. -/
theorem dlLoop_success_verified {hash : List Nat → String} {server : Server}
    {cs : String} {rc : Nat} :
    ∀ (fuel a : Nat) (file : Option (List Nat)) (waits : List (Nat × Nat))
      (ops bytes : Nat),
      (dlLoop hash server cs rc fuel a file waits ops bytes).success = true →
      verify_checksum hash
        (dlLoop hash server cs rc fuel a file waits ops bytes).file cs = true := by
  intro fuel
  induction fuel with
  | zero =>
    intro a file waits ops bytes h
    simp [dlLoop] at h
  | succ n ih =>
    intro a file waits ops bytes h
    cases hstep : (attemptStep hash (server a) cs a rc file).out with
    | done b f =>
      simp only [dlLoop, hstep] at h ⊢
      subst h
      exact attemptStep_done_true hstep
    | retryAfterWait w f =>
      simp only [dlLoop, hstep] at h ⊢
      exact ih _ _ _ _ _ h
    | retryNow f =>
      simp only [dlLoop, hstep] at h ⊢
      exact ih _ _ _ _ _ h

/-- `download_file_with_resume` only returns `True` with a file passing
`verify_checksum`. -/
theorem download_success_verified {hash : List Nat → String} {server : Server}
    {cs : String} {rc : Nat} {file : Option (List Nat)}
    (h : (download_file_with_resume hash server cs rc file).success = true) :
    verify_checksum hash (download_file_with_resume hash server cs rc file).file
      cs = true :=
  dlLoop_success_verified rc 0 file [] 0 0 h

/-! ### Helper lemmas: `download_single_model` and the pipeline -/

/-- When the pre-fetch check accepts the existing file (plausible size and,
if a digest was supplied, matching digest), the task skips: no filesystem
change, no HTTP request, no bytes. -/
theorem single_model_skips {hash : List Nat → String}
    {serverFor : String → Server} {dir : String} {mi : ModelInfo} {fs : FS}
    {c : List Nat}
    (hfs : fs (targetPathOf dir mi.url) = some c)
    (hsize : MIN_VALID_FILE_SIZE_KB * KB_TO_BYTES < c.length)
    (hok : mi.checksum = "" ∨ verify_checksum hash (some c) mi.checksum = true) :
    download_single_model hash serverFor dir mi fs = ⟨true, true, fs, 0, 0⟩ := by
  unfold download_single_model
  simp only []
  rw [hfs]
  simp only []
  rw [if_pos hsize]
  rcases hok with hcs | hver
  · rw [if_pos hcs]
  · by_cases hcs : mi.checksum = ""
    · rw [if_pos hcs]
    · rw [if_neg hcs, if_pos hver]

/-- A task only writes its own target path. -/
theorem single_model_fs_frame {hash : List Nat → String}
    {serverFor : String → Server} {dir : String} {mi : ModelInfo} {fs : FS}
    {q : String} (hq : q ≠ targetPathOf dir mi.url) :
    (download_single_model hash serverFor dir mi fs).fs q = fs q := by
  unfold download_single_model proceedDownload
  simp only []
  cases hfs : fs (targetPathOf dir mi.url) with
  | none =>
    simp only []
    exact FS.update_other _ _ _ _ hq
  | some content =>
    simp only []
    by_cases h1 : content.length > MIN_VALID_FILE_SIZE_KB * KB_TO_BYTES
    · rw [if_pos h1]
      by_cases hcs : mi.checksum = ""
      · rw [if_pos hcs]
      · rw [if_neg hcs]
        by_cases hver : verify_checksum hash (some content) mi.checksum = true
        · rw [if_pos hver]
        · rw [if_neg hver]
          simp only []
          rw [FS.update_other _ _ _ _ hq, FS.update_other _ _ _ _ hq]
    · rw [if_neg h1]
      simp only []
      rw [FS.update_other _ _ _ _ hq, FS.update_other _ _ _ _ hq]

/-- A non-skipped successful task leaves, at its target path, a file that
passes `verify_checksum` against the request's digest. -/
theorem single_model_success_verified {hash : List Nat → String}
    {serverFor : String → Server} {dir : String} {mi : ModelInfo} {fs : FS}
    (hsucc : (download_single_model hash serverFor dir mi fs).success = true)
    (hskip : (download_single_model hash serverFor dir mi fs).skipped = false) :
    verify_checksum hash
      ((download_single_model hash serverFor dir mi fs).fs
        (targetPathOf dir mi.url)) mi.checksum = true := by
  unfold download_single_model proceedDownload at *
  simp only [] at *
  cases hfs : fs (targetPathOf dir mi.url) with
  | none =>
    rw [hfs] at hsucc hskip
    simp only [] at hsucc hskip ⊢
    rw [FS.update_self]
    exact download_success_verified hsucc
  | some content =>
    rw [hfs] at hsucc hskip
    simp only [] at hsucc hskip ⊢
    by_cases h1 : content.length > MIN_VALID_FILE_SIZE_KB * KB_TO_BYTES
    · rw [if_pos h1] at hsucc hskip ⊢
      by_cases hcs : mi.checksum = ""
      · rw [if_pos hcs] at hsucc hskip ⊢
        simp at hskip
      · rw [if_neg hcs] at hsucc hskip ⊢
        by_cases hver : verify_checksum hash (some content) mi.checksum = true
        · rw [if_pos hver] at hsucc hskip ⊢
          simp at hskip
        · rw [if_neg hver] at hsucc hskip ⊢
          simp only [] at hsucc ⊢
          rw [FS.update_self]
          exact download_success_verified hsucc
    · rw [if_neg h1] at hsucc hskip ⊢
      simp only [] at hsucc ⊢
      rw [FS.update_self]
      exact download_success_verified hsucc

/-- The pipeline leaves untouched every path that is no request's target. -/
theorem runPipeline_fs_frame {hash : List Nat → String}
    {serverFor : String → Server} {dir : String} :
    ∀ (ms : List ModelInfo) (fs : FS) (q : String),
      (∀ m ∈ ms, q ≠ targetPathOf dir m.url) →
      (runPipeline hash serverFor dir ms fs).2 q = fs q := by
  intro ms
  induction ms with
  | nil => intro fs q _; rfl
  | cons m rest ih =>
    intro fs q h
    simp only [runPipeline]
    rw [ih _ _ (fun m' hm' => h m' (List.mem_cons_of_mem _ hm'))]
    exact single_model_fs_frame (h m (List.mem_cons_self _ _))

/-- Core of the idempotence argument, generalised over the filesystem `fs2`
the second run starts from: as long as `fs2` agrees with the first run's
final filesystem on every request's target path and the requests have
pairwise-distinct targets, any request that ended successful (not skipped)
in the first run with a final file above the size floor is skipped by the
second run with zero HTTP requests and zero bytes. -/
theorem second_run_skips_aux {hash : List Nat → String}
    {serverFor : String → Server} {dir : String} :
    ∀ (ms : List ModelInfo) (fs fs2 : FS),
      (ms.map fun m => targetPathOf dir m.url).Nodup →
      (∀ m ∈ ms, fs2 (targetPathOf dir m.url)
          = (runPipeline hash serverFor dir ms fs).2 (targetPathOf dir m.url)) →
      ∀ i, i < ms.length →
        ((runPipeline hash serverFor dir ms fs).1.getD i dummyTask).success = true →
        ((runPipeline hash serverFor dir ms fs).1.getD i dummyTask).skipped = false →
        ∀ c, ((runPipeline hash serverFor dir ms fs).1.getD i dummyTask).fs
              (targetPathOf dir (ms.getD i dummyModel).url) = some c →
          MIN_VALID_FILE_SIZE_KB * KB_TO_BYTES < c.length →
          ((runPipeline hash serverFor dir ms fs2).1.getD i dummyTask).skipped = true ∧
          ((runPipeline hash serverFor dir ms fs2).1.getD i dummyTask).success = true ∧
          ((runPipeline hash serverFor dir ms fs2).1.getD i dummyTask).netOps = 0 ∧
          ((runPipeline hash serverFor dir ms fs2).1.getD i dummyTask).netBytes = 0 := by
  intro ms
  induction ms with
  | nil =>
    intro fs fs2 _ _ i hi
    exact absurd hi (by simp)
  | cons m rest ih =>
    intro fs fs2 hnodup hag i hi hsucc hskip c hc hsize
    have hnd : (targetPathOf dir m.url
          ∉ rest.map fun m' => targetPathOf dir m'.url)
        ∧ (rest.map fun m' => targetPathOf dir m'.url).Nodup := by
      rw [List.map_cons, List.nodup_cons] at hnodup
      exact hnodup
    have hhead : ∀ m' ∈ rest,
        targetPathOf dir m.url ≠ targetPathOf dir m'.url := by
      intro m' hm' heq
      apply hnd.1
      rw [heq]
      exact List.mem_map_of_mem _ hm'
    cases i with
    | zero =>
      simp only [runPipeline, List.getD_cons_zero] at hsucc hskip hc ⊢
      have hfs2 : fs2 (targetPathOf dir m.url) = some c := by
        have h1 := hag m (List.mem_cons_self _ _)
        have h2 : (runPipeline hash serverFor dir (m :: rest) fs).2
            (targetPathOf dir m.url)
            = (download_single_model hash serverFor dir m fs).fs
              (targetPathOf dir m.url) := by
          simp only [runPipeline]
          exact runPipeline_fs_frame rest _ _ hhead
        rw [h1, h2, hc]
      have hver := single_model_success_verified hsucc hskip
      rw [hc] at hver
      have := @single_model_skips hash serverFor dir m fs2 c hfs2 hsize (Or.inr hver)
      rw [this]
      exact ⟨rfl, rfl, rfl, rfl⟩
    | succ j =>
      simp only [runPipeline, List.getD_cons_succ, List.length_cons] at hsucc hskip hc hi ⊢
      refine ih (download_single_model hash serverFor dir m fs).fs
        (download_single_model hash serverFor dir m fs2).fs
        hnd.2 ?_ j (by omega) hsucc hskip c hc hsize
      intro m' hm'
      have hne : targetPathOf dir m'.url ≠ targetPathOf dir m.url :=
        fun heq => hhead m' hm' heq.symm
      rw [single_model_fs_frame hne]
      have h1 := hag m' (List.mem_cons_of_mem _ hm')
      simpa [runPipeline] using h1

theorem runPipeline_length {hash : List Nat → String}
    {serverFor : String → Server} {dir : String} :
    ∀ (ms : List ModelInfo) (fs : FS),
      (runPipeline hash serverFor dir ms fs).1.length = ms.length := by
  intro ms
  induction ms with
  | nil => intro fs; rfl
  | cons m rest ih =>
    intro fs
    simp only [runPipeline, List.length_cons]
    rw [ih]

/-- The tally loop adds exactly one unit per processed outcome. -/
theorem tally_foldl_sum :
    ∀ (rs : List (Except Unit (Bool × Bool))) (s sk f : Nat),
      (rs.foldl tallyStep (s, sk, f)).1 + (rs.foldl tallyStep (s, sk, f)).2.1
        + (rs.foldl tallyStep (s, sk, f)).2.2 = s + sk + f + rs.length := by
  intro rs
  induction rs with
  | nil => intro s sk f; simp
  | cons r rest ih =>
    intro s sk f
    cases r with
    | error e =>
      simp only [List.foldl_cons, tallyStep, List.length_cons]
      rw [ih]
      omega
    | ok p =>
      rcases p with ⟨succ, skip⟩
      cases skip <;> cases succ <;>
        simp only [List.foldl_cons, tallyStep, List.length_cons, if_true,
          if_false, Bool.false_eq_true, ite_false, ite_true] <;>
        rw [ih] <;> omega

/-- First-match characterisation of `List.find?`. -/
theorem find?_first_characterisation {α : Type} (p : α → Bool) :
    ∀ l : List α,
      ((∀ a ∈ l, p a = false) ∧ l.find? p = none) ∨
      ∃ i : Fin l.length, p (l.get i) = true ∧
        (∀ j : Fin l.length, (j : Nat) < (i : Nat) → p (l.get j) = false) ∧
        l.find? p = some (l.get i) := by
  intro l
  induction l with
  | nil => left; simp
  | cons a t ih =>
    by_cases ha : p a = true
    · right
      refine ⟨⟨0, by simp⟩, ha, ?_, ?_⟩
      · intro j hj
        exact absurd hj (Nat.not_lt_zero _)
      · simp [List.find?_cons, ha]
    · have ha' : p a = false := by
        cases h : p a
        · rfl
        · exact absurd h ha
      rcases ih with ⟨hall, hnone⟩ | ⟨i, h1, h2, h3⟩
      · left
        refine ⟨?_, ?_⟩
        · intro x hx
          rcases List.mem_cons.mp hx with rfl | hx'
          · exact ha'
          · exact hall x hx'
        · simp [List.find?_cons, ha', hnone]
      · right
        refine ⟨⟨(i : Nat) + 1, by simp⟩, h1, ?_, ?_⟩
        · intro j hj
          rcases j with ⟨jv, hjv⟩
          cases jv with
          | zero => exact ha'
          | succ k =>
            exact h2 ⟨k, by simpa using hjv⟩ (by simpa using hj)
        · simp only [List.find?_cons, ha']
          exact h3

/-! ### Helper lemmas: the backoff-wait formula -/

theorem onNetErr_retryAfterWait {a rc : Nat} {f f' : Option (List Nat)}
    {ops bytes w : Nat}
    (h : (onNetErr a rc f ops bytes).out = .retryAfterWait w f') :
    w = min (2 ^ (a + 1) * RETRY_BASE_DELAY_SECONDS) 60 := by
  unfold onNetErr at h
  split at h <;> simp_all

theorem verifyAndFinish_no_wait {hash : List Nat → String} {cs : String}
    {a rc : Nat} {nf : List Nat} {ops bytes w : Nat} {f : Option (List Nat)}
    (h : (verifyAndFinish hash cs a rc nf ops bytes).out = .retryAfterWait w f) :
    False := by
  unfold verifyAndFinish at h
  split at h
  · simp_all
  · split at h
    · simp_all
    · split at h <;> simp_all

/-- Every backoff sleep of the transfer phase uses the formula of line 379. -/
theorem transfer_retryAfterWait {hash : List Nat → String} {env : AttemptEnv}
    {cs : String} {a rc es : Nat} {f : Option (List Nat)} {ops : Nat}
    {w : Nat} {f' : Option (List Nat)}
    (h : (transfer hash env cs a rc es f ops).out = .retryAfterWait w f') :
    w = min (2 ^ (a + 1) * RETRY_BASE_DELAY_SECONDS) 60 := by
  unfold transfer at h
  simp only [] at h
  cases hg : env.get (if es > MIN_VALID_FILE_SIZE_KB * KB_TO_BYTES then some es else none) with
  | netErr wr =>
    rw [hg] at h
    cases wr with
    | none => exact onNetErr_retryAfterWait h
    | some part => exact onNetErr_retryAfterWait h
  | fatal wr =>
    rw [hg] at h
    cases wr with
    | none => simp_all
    | some part => simp_all
  | resp status body =>
    rw [hg] at h
    simp only [] at h
    by_cases h400 : 400 ≤ status
    · rw [if_pos h400] at h
      exact onNetErr_retryAfterWait h
    · rw [if_neg h400] at h
      by_cases h416 : status = 416
      · rw [if_pos h416] at h
        cases hg2 : env.get none with
        | netErr w2 =>
          rw [hg2] at h
          cases w2 with
          | none => exact onNetErr_retryAfterWait h
          | some part => exact onNetErr_retryAfterWait h
        | fatal w2 =>
          rw [hg2] at h
          cases w2 with
          | none => simp_all
          | some part => simp_all
        | resp status2 body2 =>
          rw [hg2] at h
          simp only [] at h
          by_cases h400b : 400 ≤ status2
          · rw [if_pos h400b] at h
            exact onNetErr_retryAfterWait h
          · rw [if_neg h400b] at h
            exact absurd h verifyAndFinish_no_wait
      · rw [if_neg h416] at h
        exact absurd h verifyAndFinish_no_wait

/-- Every backoff sleep of one attempt uses the formula of line 379. -/
theorem attemptStep_retryAfterWait {hash : List Nat → String}
    {env : AttemptEnv} {cs : String} {a rc : Nat} {file f : Option (List Nat)}
    {w : Nat}
    (h : (attemptStep hash env cs a rc file).out = .retryAfterWait w f) :
    w = min (2 ^ (a + 1) * RETRY_BASE_DELAY_SECONDS) 60 := by
  unfold attemptStep at h
  cases file with
  | none => exact transfer_retryAfterWait h
  | some content =>
    simp only [] at h
    cases hh : env.head with
    | error e => rw [hh] at h; exact transfer_retryAfterWait h
    | ok total_size =>
      rw [hh] at h
      simp only [] at h
      by_cases hcomp : content.length = total_size ∧ 0 < total_size
      · rw [if_pos hcomp] at h
        by_cases hcs : cs = ""
        · rw [if_pos hcs] at h
          simp_all
        · rw [if_neg hcs] at h
          by_cases hver : verify_checksum hash (some content) cs = true
          · rw [if_pos hver] at h
            simp_all
          · rw [if_neg hver] at h
            exact transfer_retryAfterWait h
      · rw [if_neg hcomp] at h
        exact transfer_retryAfterWait h

/-- Every pair recorded in the retry loop's wait trace follows the backoff
formula of line 379. -/
theorem dlLoop_waits_formula {hash : List Nat → String} {server : Server}
    {cs : String} {rc : Nat} :
    ∀ (fuel a : Nat) (file : Option (List Nat)) (waits : List (Nat × Nat))
      (ops bytes : Nat),
      (∀ q ∈ waits, q.2 = min (2 ^ (q.1 + 1) * RETRY_BASE_DELAY_SECONDS) 60) →
      ∀ q ∈ (dlLoop hash server cs rc fuel a file waits ops bytes).waits,
        q.2 = min (2 ^ (q.1 + 1) * RETRY_BASE_DELAY_SECONDS) 60 := by
  intro fuel
  induction fuel with
  | zero =>
    intro a file waits ops bytes hacc q hq
    exact hacc q hq
  | succ n ih =>
    intro a file waits ops bytes hacc q hq
    cases hstep : (attemptStep hash (server a) cs a rc file).out with
    | done b f =>
      simp only [dlLoop, hstep] at hq
      exact hacc q hq
    | retryAfterWait w f =>
      simp only [dlLoop, hstep] at hq
      refine ih _ _ _ _ _ ?_ q hq
      intro q' hq'
      rcases List.mem_append.mp hq' with hql | hqr
      · exact hacc q' hql
      · rcases List.mem_singleton.mp hqr with rfl
        simpa using attemptStep_retryAfterWait hstep
    | retryNow f =>
      simp only [dlLoop, hstep] at hq
      exact ih _ _ _ _ _ hacc q hq

/-! ### The claims -/

/-- C1 (counterexample): the claim states that a successful
`download_file_with_resume` guarantees the destination file is above the
minimum-size floor.  It does not: with no digest supplied, a fully streamed
200 response of 1024 bytes — e.g. an HTML error page — is reported as a
success although 1024 bytes is far below the 10 KiB floor; the function
never re-checks the floor after a transfer. -/
theorem C1_counterexample_small_success :
    (download_file_with_resume constHash (okServer (List.replicate 1024 7))
        "" 3 none).success = true ∧
    (download_file_with_resume constHash (okServer (List.replicate 1024 7))
        "" 3 none).file = some (List.replicate 1024 7) ∧
    (List.replicate 1024 7).length < MIN_VALID_FILE_SIZE_KB * KB_TO_BYTES := by
  refine ⟨rfl, rfl, ?_⟩
  rw [List.length_replicate]
  decide

/-- C1 (amended): if `download_file_with_resume` returns success then, when
a digest was supplied, the destination file passes `verify_checksum`
against it (so no digest-mismatching partial file is reported complete);
the minimum-size floor, however, is not checked by
`download_file_with_resume` itself — it is enforced only by the caller's
pre-check on existing files. -/
theorem C1_success_meets_digest (hash : List Nat → String) (server : Server)
    (cs : String) (rc : Nat) (file : Option (List Nat))
    (hsucc : (download_file_with_resume hash server cs rc file).success = true) :
    verify_checksum hash (download_file_with_resume hash server cs rc file).file
      cs = true :=
  download_success_verified hsucc

theorem C1_success_meets_digest_witness :
    (download_file_with_resume constHash (okServer (List.replicate 1024 7))
        "AA" 3 none).success = true ∧
    verify_checksum constHash
      (download_file_with_resume constHash (okServer (List.replicate 1024 7))
        "AA" 3 none).file "AA" = true :=
  ⟨rfl, C1_success_meets_digest constHash (okServer (List.replicate 1024 7))
    "AA" 3 none rfl⟩

/-- C2: for every request that terminates in the Success outcome with a
supplied (non-empty) digest, the abstract SHA-256 digest of the on-disk
destination file equals the supplied digest up to hex case;
`download_file_with_resume` never returns `True` when the final
verification hash differs from the expected one. -/
theorem C2_success_digest_equal (hash : List Nat → String) (server : Server)
    (cs : String) (rc : Nat) (file : Option (List Nat))
    (hsucc : (download_file_with_resume hash server cs rc file).success = true)
    (hcs : cs ≠ "") :
    ∃ c, (download_file_with_resume hash server cs rc file).file = some c ∧
      strToLower (hash c) = strToLower cs :=
  verify_checksum_sound hcs (download_success_verified hsucc)

theorem C2_success_digest_equal_witness :
    (download_file_with_resume hashC2 serverC2 "ab" 3 none).success = true ∧
    ("ab" : String) ≠ "" ∧
    ∃ c, (download_file_with_resume hashC2 serverC2 "ab" 3 none).file = some c ∧
      strToLower (hashC2 c) = strToLower "ab" :=
  ⟨rfl, by decide,
    C2_success_digest_equal hashC2 serverC2 "ab" 3 none rfl (by decide)⟩

/-- C3 (counterexample): the claim requires a non-zero process exit code
when one or more requests end Failed, but with counts
(successful, skipped, failed) = (0, 0, 1) the process still exits 0:
`main` contains no failure-dependent `sys.exit`. -/
theorem C3_counterexample_exit_zero :
    mainExitCode 0 0 1 = 0 ∧ 0 < 1 :=
  ⟨rfl, by decide⟩

/-- C3 (amended): the run summary naming all three counters is emitted
whatever the counts are, but the process exit code after the download phase
is 0 regardless of the failure count; a non-zero exit occurs only for
configuration errors before any download (`load_verified_links`). -/
theorem C3_summary_always_exit_zero :
    ∀ successful skipped failed : Nat,
      mainExitCode successful skipped failed = 0 ∧
      ("Successful: " ++ toString successful)
        ∈ downloadStatistics successful skipped failed ∧
      ("Skipped: " ++ toString skipped)
        ∈ downloadStatistics successful skipped failed ∧
      ("Failed: " ++ toString failed)
        ∈ downloadStatistics successful skipped failed := by
  intro s sk f
  refine ⟨rfl, ?_, ?_, ?_⟩ <;> simp [downloadStatistics]

/-- C4 (code_bug evidence): the claim — and the code's own comment at lines
324-326 — say an HTTP 416 reply to a range request discards the partial
file and restarts the transfer from zero without a range header within the
same attempt.  In fact `response.raise_for_status()` (line 322) runs first
and raises `HTTPError` for 416, so the handler is dead code: with a 20000
byte partial file and a server answering 416 to every GET, all three
attempts are counted as network failures with backoff sleeps of 10 and 20
seconds, the run fails, and the partial file is never discarded nor
re-requested from zero. -/
theorem C4_416_counted_as_network_failure :
    (download_file_with_resume constHash server416 "" 3
        (some part20000)).success = false ∧
    (download_file_with_resume constHash server416 "" 3
        (some part20000)).file = some part20000 ∧
    (download_file_with_resume constHash server416 "" 3
        (some part20000)).waits = [(0, 10), (1, 20)] := by
  refine ⟨?_, ?_, ?_⟩ <;>
    norm_num [download_file_with_resume, dlLoop, attemptStep, transfer,
      onNetErr, verifyAndFinish, server416, constHash, part20000,
      verify_checksum, MIN_VALID_FILE_SIZE_KB, KB_TO_BYTES,
      RETRY_BASE_DELAY_SECONDS]

/-- C5 (counterexample): after the failed attempt with zero-based index 0,
the code sleeps `min((2 ** (0 + 1)) * 5, 60) = 10` seconds (line 379), not
`min(2^0 * 5, 60) = 5` as the claim's formula demands. -/
theorem C5_counterexample_first_wait :
    (download_file_with_resume constHash serverC5 "" 3 none).waits
      = [(0, 10)] ∧
    min (2 ^ 0 * RETRY_BASE_DELAY_SECONDS) 60 = 5 ∧ (10 : Nat) ≠ 5 :=
  ⟨rfl, by decide, by decide⟩

/-- C5 (amended): for every failed attempt with zero-based index `attempt`
after which attempts remain, the backoff delay before the next attempt is
`min(2^(attempt + 1) * base_delay, cap)` seconds, with base_delay = 5 and
cap = 60 — one doubling step more than the claimed `2^attempt * base`. -/
theorem C5_backoff_formula (hash : List Nat → String) (server : Server)
    (cs : String) (rc : Nat) (file : Option (List Nat)) :
    ∀ q ∈ (download_file_with_resume hash server cs rc file).waits,
      q.2 = min (2 ^ (q.1 + 1) * RETRY_BASE_DELAY_SECONDS) 60 :=
  dlLoop_waits_formula rc 0 file [] 0 0 (by simp)

theorem C5_backoff_formula_witness :
    (0, 10) ∈ (download_file_with_resume constHash serverC5 "" 3 none).waits ∧
    (10 : Nat) = min (2 ^ (0 + 1) * RETRY_BASE_DELAY_SECONDS) 60 :=
  ⟨by decide, C5_backoff_formula constHash serverC5 "" 3 none (0, 10) (by decide)⟩

/-- C6: the destination category is the category of the first rule of
`MODEL_CLASSIFICATION_MAPPING` (scanned in list order) whose keyword
matches the lower-cased file name — suffix match for keywords starting
with a dot, substring match otherwise — falling back to the default
category `diffusion_models` when no rule matches; in particular the file
name `vae-ft-mse-840000-ema-pruned.safetensors` resolves to the `vae`
category, not the generic `checkpoints` category. -/
theorem C6_category_first_match :
    determine_target_directory vaeUrl = "vae" ∧
    ∀ url : String,
      ((∀ rule ∈ MODEL_CLASSIFICATION_MAPPING,
          ruleMatches (strToLower (urlFilename url)) rule = false) ∧
        determine_target_directory url = "diffusion_models") ∨
      (∃ i : Fin MODEL_CLASSIFICATION_MAPPING.length,
        ruleMatches (strToLower (urlFilename url))
          (MODEL_CLASSIFICATION_MAPPING.get i) = true ∧
        (∀ j : Fin MODEL_CLASSIFICATION_MAPPING.length, (j : Nat) < (i : Nat) →
          ruleMatches (strToLower (urlFilename url))
            (MODEL_CLASSIFICATION_MAPPING.get j) = false) ∧
        determine_target_directory url
          = (MODEL_CLASSIFICATION_MAPPING.get i).1) := by
  constructor
  · decide
  · intro url
    rcases find?_first_characterisation
        (ruleMatches (strToLower (urlFilename url)))
        MODEL_CLASSIFICATION_MAPPING with ⟨h1, h2⟩ | ⟨i, h1, h2, h3⟩
    · left
      exact ⟨h1, by simp [determine_target_directory, classifyFilename, h2]⟩
    · right
      exact ⟨i, h1, h2,
        by simp [determine_target_directory, classifyFilename, h3]⟩

/-- C7: an existing destination file smaller than the 10 KiB floor is
treated as invalid by the pre-fetch check regardless of whether a digest
was supplied: the file is deleted and the request proceeds to a fresh
download — the task result is exactly the download continuation on the
filesystem with the file removed — instead of being skipped. -/
theorem C7_small_file_invalid (hash : List Nat → String)
    (serverFor : String → Server) (dir : String) (mi : ModelInfo) (fs : FS)
    (c : List Nat)
    (hfs : fs (targetPathOf dir mi.url) = some c)
    (hsize : c.length < MIN_VALID_FILE_SIZE_KB * KB_TO_BYTES) :
    download_single_model hash serverFor dir mi fs
      = proceedDownload hash (serverFor mi.url) mi.checksum
          (FS.update fs (targetPathOf dir mi.url) none)
          (targetPathOf dir mi.url) ∧
    (download_single_model hash serverFor dir mi fs).skipped = false := by
  have key : download_single_model hash serverFor dir mi fs
      = proceedDownload hash (serverFor mi.url) mi.checksum
          (FS.update fs (targetPathOf dir mi.url) none)
          (targetPathOf dir mi.url) := by
    unfold download_single_model
    simp only []
    rw [hfs]
    simp only []
    rw [if_neg (by omega : ¬ c.length > MIN_VALID_FILE_SIZE_KB * KB_TO_BYTES)]
  refine ⟨key, ?_⟩
  rw [key]
  rfl

theorem C7_small_file_invalid_witness :
    smallFS (targetPathOf "models" miFooCk.url) = some [1, 2, 3] ∧
    ([1, 2, 3] : List Nat).length < MIN_VALID_FILE_SIZE_KB * KB_TO_BYTES ∧
    (download_single_model constHash sForBig "models" miFooCk smallFS
        = proceedDownload constHash (sForBig miFooCk.url) miFooCk.checksum
            (FS.update smallFS (targetPathOf "models" miFooCk.url) none)
            (targetPathOf "models" miFooCk.url) ∧
      (download_single_model constHash sForBig "models" miFooCk
          smallFS).skipped = false) :=
  ⟨by simp [smallFS, FS.update, miFooCk, fooUrl], by decide,
    C7_small_file_invalid constHash sForBig "models" miFooCk smallFS [1, 2, 3]
      (by simp [smallFS, FS.update, miFooCk, fooUrl]) (by decide)⟩

/-- C8: a request whose existing destination file passes the pre-fetch
validity check (size strictly above the floor and, when a digest was
supplied, matching digest) ends Skipped and performs no network operation:
the task returns with was_skipped set, the filesystem unchanged, zero HTTP
requests issued (neither HEAD nor GET) and zero body bytes. -/
theorem C8_valid_existing_skips (hash : List Nat → String)
    (serverFor : String → Server) (dir : String) (mi : ModelInfo) (fs : FS)
    (c : List Nat)
    (hfs : fs (targetPathOf dir mi.url) = some c)
    (hsize : MIN_VALID_FILE_SIZE_KB * KB_TO_BYTES < c.length)
    (hok : mi.checksum = "" ∨
      verify_checksum hash (some c) mi.checksum = true) :
    download_single_model hash serverFor dir mi fs = ⟨true, true, fs, 0, 0⟩ :=
  single_model_skips hfs hsize hok

theorem C8_valid_existing_skips_witness :
    bigFS (targetPathOf "models" miFooCk.url) = some big10241 ∧
    MIN_VALID_FILE_SIZE_KB * KB_TO_BYTES < big10241.length ∧
    (miFooCk.checksum = "" ∨
      verify_checksum constHash (some big10241) miFooCk.checksum = true) ∧
    download_single_model constHash sForBig "models" miFooCk bigFS
      = ⟨true, true, bigFS, 0, 0⟩ :=
  ⟨by simp [bigFS, FS.update, miFooCk, fooUrl],
   by simp only [big10241, List.length_replicate]; decide,
   Or.inr (by decide),
   C8_valid_existing_skips constHash sForBig "models" miFooCk bigFS big10241
     (by simp [bigFS, FS.update, miFooCk, fooUrl])
     (by simp only [big10241, List.length_replicate]; decide)
     (Or.inr (by decide))⟩

set_option maxRecDepth 30000 in
/-- C9 (counterexample): the claim promises that a second pipeline run
transfers zero additional bytes for every request that ended Successful in
the first run.  Not so for a successful download below the 10 KiB floor
(here a 1024-byte file, no digest): the second run's pre-fetch check
deletes it as "incomplete" and downloads it again — the request does not
end Skipped and transfers 1024 network bytes again. -/
theorem C9_counterexample_small_redownload :
    ((runPipeline constHash sForSmall "models" [miFoo] emptyFS).1.getD 0
        dummyTask).success = true ∧
    ((runPipeline constHash sForSmall "models" [miFoo] emptyFS).1.getD 0
        dummyTask).skipped = false ∧
    ((runPipeline constHash sForSmall "models" [miFoo]
        (runPipeline constHash sForSmall "models" [miFoo] emptyFS).2).1.getD 0
        dummyTask).skipped = false ∧
    ((runPipeline constHash sForSmall "models" [miFoo]
        (runPipeline constHash sForSmall "models" [miFoo] emptyFS).2).1.getD 0
        dummyTask).netBytes = 1024 :=
  ⟨by decide, by decide, by decide, by decide⟩

/-- C9 (amended): provided no two requests map to the same destination path
(the concurrency precondition the spec itself imposes) and the request's
first-run download left a file above the minimum-size floor, every request
that ended Successful (not skipped) in the first run ends Skipped in a
second run over the first run's destination tree, with zero HTTP requests
and zero transferred bytes. -/
theorem C9_second_run_skips (hash : List Nat → String)
    (serverFor : String → Server) (dir : String) (models : List ModelInfo)
    (fs : FS)
    (hnodup : (models.map fun m => targetPathOf dir m.url).Nodup)
    (i : Nat) (hi : i < models.length)
    (hsucc : ((runPipeline hash serverFor dir models fs).1.getD i
        dummyTask).success = true)
    (hskip : ((runPipeline hash serverFor dir models fs).1.getD i
        dummyTask).skipped = false)
    (c : List Nat)
    (hc : ((runPipeline hash serverFor dir models fs).1.getD i dummyTask).fs
        (targetPathOf dir (models.getD i dummyModel).url) = some c)
    (hsize : MIN_VALID_FILE_SIZE_KB * KB_TO_BYTES < c.length) :
    ((runPipeline hash serverFor dir models
        (runPipeline hash serverFor dir models fs).2).1.getD i
        dummyTask).skipped = true ∧
    ((runPipeline hash serverFor dir models
        (runPipeline hash serverFor dir models fs).2).1.getD i
        dummyTask).success = true ∧
    ((runPipeline hash serverFor dir models
        (runPipeline hash serverFor dir models fs).2).1.getD i
        dummyTask).netOps = 0 ∧
    ((runPipeline hash serverFor dir models
        (runPipeline hash serverFor dir models fs).2).1.getD i
        dummyTask).netBytes = 0 :=
  second_run_skips_aux models fs _ hnodup (fun _ _ => rfl) i hi hsucc hskip
    c hc hsize

set_option maxRecDepth 30000 in
theorem C9_second_run_skips_witness :
    (([miFoo].map fun m => targetPathOf "models" m.url).Nodup) ∧
    0 < ([miFoo] : List ModelInfo).length ∧
    ((runPipeline constHash sForBig "models" [miFoo] emptyFS).1.getD 0
        dummyTask).success = true ∧
    ((runPipeline constHash sForBig "models" [miFoo] emptyFS).1.getD 0
        dummyTask).skipped = false ∧
    ((runPipeline constHash sForBig "models" [miFoo] emptyFS).1.getD 0
        dummyTask).fs
        (targetPathOf "models" (([miFoo] : List ModelInfo).getD 0
          dummyModel).url) = some big10241 ∧
    MIN_VALID_FILE_SIZE_KB * KB_TO_BYTES < big10241.length ∧
    (((runPipeline constHash sForBig "models" [miFoo]
        (runPipeline constHash sForBig "models" [miFoo] emptyFS).2).1.getD 0
        dummyTask).skipped = true ∧
     ((runPipeline constHash sForBig "models" [miFoo]
        (runPipeline constHash sForBig "models" [miFoo] emptyFS).2).1.getD 0
        dummyTask).success = true ∧
     ((runPipeline constHash sForBig "models" [miFoo]
        (runPipeline constHash sForBig "models" [miFoo] emptyFS).2).1.getD 0
        dummyTask).netOps = 0 ∧
     ((runPipeline constHash sForBig "models" [miFoo]
        (runPipeline constHash sForBig "models" [miFoo] emptyFS).2).1.getD 0
        dummyTask).netBytes = 0) :=
  ⟨by simp, by decide, by decide, by decide, rfl,
   by simp only [big10241, List.length_replicate]; decide,
   C9_second_run_skips constHash sForBig "models" [miFoo] emptyFS (by simp)
     0 (by decide) (by decide) (by decide) big10241 rfl
     (by simp only [big10241, List.length_replicate]; decide)⟩

/-- C10: each request contributes exactly one unit to exactly one of the
three aggregate counters (successful, skipped, failed) — an outcome
recorded as a raised exception counts as failed — so
successful + skipped + failed equals the number of processed outcomes, and
at pipeline level equals the number of requests. -/
theorem C10_counts_partition :
    (∀ rs : List (Except Unit (Bool × Bool)),
      (tallyOutcomes rs).1 + (tallyOutcomes rs).2.1 + (tallyOutcomes rs).2.2
        = rs.length) ∧
    ∀ (hash : List Nat → String) (serverFor : String → Server) (dir : String)
      (models : List ModelInfo) (fs : FS),
      (download_all_models_parallel hash serverFor dir models fs).1.1
        + (download_all_models_parallel hash serverFor dir models fs).1.2.1
        + (download_all_models_parallel hash serverFor dir models fs).1.2.2
        = models.length := by
  have base : ∀ rs : List (Except Unit (Bool × Bool)),
      (tallyOutcomes rs).1 + (tallyOutcomes rs).2.1 + (tallyOutcomes rs).2.2
        = rs.length := by
    intro rs
    simpa using tally_foldl_sum rs 0 0 0
  refine ⟨base, ?_⟩
  intro hash serverFor dir models fs
  unfold download_all_models_parallel
  simp only []
  rw [base, List.length_map, runPipeline_length]

end DownloadModels
